import Mathlib

/-!
Verification development for the handl isomorphic GraphQL client.

The orchestration layer (`ClientHandl` in `src/client/client.ts`) is embedded
shallowly: the three cache stores, the active/pending request registries and
the resolve pipeline become explicit state passed through pure functions.
External collaborators that live outside the orchestrator (the cache manager's
analyse/resolve algorithms, the request parser, the executor and subscriber)
are modelled as oracle functions carried in an `Env` record, and the external
`cacheability` package together with the metadata helpers is modelled from the
specification.
-/

namespace Handl

/-! ### Association lists

JavaScript `Map` objects (the request registries) and the keyed cache stores
are embedded as association lists with string keys. `insertA` replaces the
value when the key is present (as `Map.set` does) and `eraseA` removes the
key (as `Map.delete` does). -/

def lookupA {α : Type} : List (String × α) → String → Option α
  | [], _ => none
  | p :: rest, k => if p.1 = k then some p.2 else lookupA rest k

def insertA {α : Type} : List (String × α) → String → α → List (String × α)
  | [], k, v => [(k, v)]
  | p :: rest, k, v => if p.1 = k then (k, v) :: rest else p :: insertA rest k v

def eraseA {α : Type} : List (String × α) → String → List (String × α)
  | [], _ => []
  | p :: rest, k => if p.1 = k then eraseA rest k else p :: eraseA rest k

theorem lookupA_insertA_self {α : Type} (m : List (String × α)) (k : String) (v : α) :
    lookupA (insertA m k v) k = some v := by
  induction m with
  | nil => simp [insertA, lookupA]
  | cons p rest ih =>
    by_cases h : p.1 = k
    · simp [insertA, lookupA, h]
    · simp [insertA, lookupA, h, ih]

theorem lookupA_eraseA_self {α : Type} (m : List (String × α)) (k : String) :
    lookupA (eraseA m k) k = none := by
  induction m with
  | nil => simp [eraseA, lookupA]
  | cons p rest ih =>
    by_cases h : p.1 = k
    · simp [eraseA, h, ih]
    · simp [eraseA, lookupA, h, ih]

theorem lookupA_insertA_ne {α : Type} (m : List (String × α)) (k k2 : String) (v : α)
    (h : k ≠ k2) : lookupA (insertA m k v) k2 = lookupA m k2 := by
  induction m with
  | nil => simp [insertA, lookupA, h]
  | cons p rest ih =>
    by_cases hp : p.1 = k
    · simp [insertA, lookupA, hp, h]
    · simp only [insertA, hp, if_false]
      by_cases hq : p.1 = k2
      · simp [lookupA, hq]
      · simp [lookupA, hq, ih]

/-! ### Cacheability

Modelled from the spec: the `cacheability` npm package is an external
collaborator not under `src/`.  Spec section 3 gives the fields and the
validity predicate `isValid(now) = storedAt + effectiveMaxAge >= now &&
!noCache && !noStore`; section 4.A gives `parseCacheControl`,
`printCacheControl` (canonical directive string) and notes that `noStore`
implies invalid. -/

structure Cacheability where
  maxAge : Nat
  sMaxAge : Option Nat
  noCache : Bool
  noStore : Bool
  pubFlag : Bool
  privFlag : Bool
  storedAt : Nat
deriving DecidableEq, Repr

/-- Helper splitting a directive string at commas, structurally over the
character list (so the kernel can evaluate it). -/
def splitOnComma : List Char → List (List Char)
  | [] => [[]]
  | c :: rest =>
    let r := splitOnComma rest
    if c = ',' then [] :: r
    else
      match r with
      | [] => [[c]]
      | g :: gs => (c :: g) :: gs

def trimSpaces (cs : List Char) : List Char :=
  ((cs.dropWhile (fun c => c = ' ')).reverse.dropWhile (fun c => c = ' ')).reverse

def splitDirectives (s : String) : List String :=
  (splitOnComma s.data).map (fun cs => String.mk (trimSpaces cs))

def parseNatDigitsAux : List Char → Nat → Option Nat
  | [], acc => some acc
  | c :: rest, acc =>
    if c.isDigit then parseNatDigitsAux rest (acc * 10 + (c.toNat - 48)) else none

def parseNatDigits : List Char → Option Nat
  | [] => none
  | c :: rest => parseNatDigitsAux (c :: rest) 0

def findDirectiveNum (parts : List String) (pre : List Char) : Option Nat :=
  (parts.filterMap (fun p =>
    if pre.isPrefixOf p.data then parseNatDigits (p.data.drop pre.length) else none)).head?

/-- Modelled from the spec: `parseCacheControl` of the external `cacheability`
package; `now` stands for the wall-clock instant at which the directive is
parsed (`storedAt`). -/
def Cacheability.parseCacheControlAt (now : Nat) (s : String) : Cacheability :=
  let parts := splitDirectives s
  { maxAge := (findDirectiveNum parts "max-age=".data).getD 0
    sMaxAge := findDirectiveNum parts "s-maxage=".data
    noCache := parts.contains "no-cache"
    noStore := parts.contains "no-store"
    pubFlag := parts.contains "public"
    privFlag := parts.contains "private"
    storedAt := now }

/-- Modelled from the spec: canonical directive emission (spec section 4.A). -/
def Cacheability.printCacheControl (c : Cacheability) : String :=
  let base :=
    (if c.pubFlag then ["public"] else []) ++
    (if c.privFlag then ["private"] else []) ++
    ["max-age=" ++ toString c.maxAge] ++
    (match c.sMaxAge with
     | some n => ["s-maxage=" ++ toString n]
     | none => []) ++
    (if c.noCache then ["no-cache"] else []) ++
    (if c.noStore then ["no-store"] else [])
  String.intercalate ", " base

/-- Modelled from the spec: `isValid(now) = storedAt + effectiveMaxAge >= now
&& !noCache && !noStore` (spec section 3). -/
def Cacheability.isValidAt (c : Cacheability) (now : Nat) : Bool :=
  decide (now ≤ c.storedAt + c.maxAge) && !c.noCache && !c.noStore

/-! ### Cache metadata -/

/-- CacheMetadata: mapping from cache-path string to Cacheability. -/
abbrev CacheMetadata : Type := List (String × Cacheability)

/-- Dehydrated CacheMetadata: path to directive string. -/
abbrev DehydratedCacheMetadata : Type := List (String × String)

/-- Modelled from the spec: the helper `dehydrate-cache-metadata` (not under
`src/`) serialises each Cacheability as its directive string. -/
def dehydrateCacheMetadata (m : CacheMetadata) : DehydratedCacheMetadata :=
  m.map (fun p => (p.1, p.2.printCacheControl))

/-- Modelled from the spec: the helper `rehydrate-cache-metadata` (not under
`src/`) parses each directive string back into a Cacheability. -/
def rehydrateCacheMetadata (now : Nat) (d : DehydratedCacheMetadata) : CacheMetadata :=
  d.map (fun p => (p.1, Cacheability.parseCacheControlAt now p.2))

/-- Modelled from the spec: the helper `create-cache-metadata` (not under
`src/`) builds a CacheMetadata from an optional dehydrated map. -/
def createCacheMetadata (now : Nat) (cm : Option DehydratedCacheMetadata) : CacheMetadata :=
  match cm with
  | some d => rehydrateCacheMetadata now d
  | none => []

/-! ### Request fingerprint -/

/-- Modelled from the spec: `hashRequest` (helper not under `src/`) is a
stable hash of the canonicalised request string; embedded as FNV-1a over the
string's characters, truncated to 32 bits. -/
def fnv1a (s : String) : Nat :=
  s.data.foldl (fun h ch => ((h ^^^ ch.toNat) * 16777619) % 4294967296) 2166136261

def hashRequest (s : String) : String := toString (fnv1a s)

/-! ### Documents, errors and collaborator result shapes -/

/-- An operation definition node of a parsed, normalised document.  The
`operation` field holds the GraphQL operation kind as the string the
orchestrator dispatches on. -/
structure OperationDefinition where
  operation : String
  nameValue : Option String
deriving DecidableEq, Repr

/-- A parsed, normalised document.  After the request parser inlines
variables and fragments, the orchestrator only inspects the document's
operation definitions, so the embedding carries exactly those. -/
structure Doc where
  operations : List OperationDefinition
deriving DecidableEq, Repr

/-- Embeds `getOperationDefinitions` (`src/helpers/parsing`): filters the
document to operation nodes preserving order; on the embedded document this
is the projection to its operation list. -/
def getOperationDefinitions (ast : Doc) : List OperationDefinition :=
  ast.operations

/-- Errors observable from the orchestrator: `TypeError`s it constructs,
plain `Error`s, the array of validation errors, and opaque rejections coming
back from external collaborators. -/
inductive Err where
  | typeErr (msg : String)
  | err (msg : String)
  | validationErrs (msgs : List String)
  | typeErrs (msgs : List String)
  | fromExec (code : Nat)
deriving DecidableEq, Repr

/-- Response data payload: the orchestrator moves response objects around
without inspecting their insides, so the embedding carries them as flat maps
from field name to printed scalar. -/
abbrev ObjectMap : Type := List (String × String)

/-- A response record stored in the `responses` cache: dehydrated metadata
plus the fully shaped data (spec section 3). -/
structure ResponseRecord where
  cacheMetadata : DehydratedCacheMetadata
  data : ObjectMap
deriving DecidableEq

/-- An entry of the `responses` store: the record plus the Cacheability the
underlying cachemap keeps for it (returned by the store's `has`). -/
structure StoreEntry where
  record : ResponseRecord
  cacheability : Cacheability
deriving DecidableEq

/-- Eventual outcome of a deferred cache-write promise. -/
inductive PromiseOutcome where
  | fulfilled
  | rejectedWith (e : Err)
deriving DecidableEq, Repr

/-- Result of the cache manager's `analyze` (shape from
`src/cache-manager/types.ts`, `AnalyzeResult`). -/
structure AnalyzeResult where
  cachedData : Option ObjectMap
  cacheMetadata : Option CacheMetadata
  filtered : Option Bool
  updatedAST : Option Doc
  updatedQuery : Option String
deriving DecidableEq

/-- What the external executor's `resolve` does for a given request: throw,
or return `{ data, errors?, cacheMetadata?, headers }`. -/
inductive ExecResponse where
  | throws (e : Err)
  | returns (data : Option ObjectMap) (errors : Option Err)
      (cacheMetadata : Option DehydratedCacheMetadata)
deriving DecidableEq

/-- What the external subscriber's `resolve` does: throw, hand back an async
iterator, or return a single execution result. -/
inductive SubscribeResponse where
  | throws (e : Err)
  | stream
  | execResult (data : Option ObjectMap) (errors : Option Err)
      (cacheMetadata : Option DehydratedCacheMetadata)
deriving DecidableEq

/-- Modelled from the spec: outcome of the cache manager's `resolveQuery`
(not under `src/`): new contents of the three tiers, the combined metadata
and shaped data returned to the orchestrator, and the eventual outcome of
the `cacheResolve` deferred promise (spec section 4.D.2). -/
structure CMQueryOutcome where
  responses : List (String × StoreEntry)
  queryPaths : List (String × ObjectMap)
  dataEntities : List (String × ObjectMap)
  cacheMetadata : CacheMetadata
  data : Option ObjectMap
  cacheOutcome : PromiseOutcome

/-- Modelled from the spec: outcome of `resolveMutation` and
`resolveSubscription` (not under `src/`): mutations and subscription
messages update data-entities and query-paths but never the response cache
(spec section 4.D.2), so only those two tiers appear in the outcome. -/
structure CMWriteOutcome where
  queryPaths : List (String × ObjectMap)
  dataEntities : List (String × ObjectMap)
  cacheMetadata : CacheMetadata
  data : Option ObjectMap
  cacheOutcome : PromiseOutcome

/-- Options of one `request` call; `fragments` and `variables` are consumed
by the parser oracle, so only the fields the orchestrator itself reads are
carried. -/
structure RequestOptions where
  awaitDataCached : Bool
  tag : Option String
deriving DecidableEq, Repr

/-- External collaborators and ambient facts for one request: the wall
clock, the request parser, schema validation, the cache manager's algorithms
and the executor/subscriber transports.  `responsesSetFails` says whether a
write to the `responses` store throws (spec: store write errors). -/
structure Env where
  now : Nat
  updateRequest : String → RequestOptions → Except Err (String × Doc)
  validate : Doc → List String
  analyze : String → Doc → AnalyzeResult
  executor : String → ExecResponse
  subscriber : String → String → SubscribeResponse
  resolveQuery : String → Doc → String → Option ObjectMap → CacheMetadata →
    List (String × StoreEntry) → List (String × ObjectMap) →
    List (String × ObjectMap) → CMQueryOutcome
  resolveMutation : Doc → Option ObjectMap → CacheMetadata →
    List (String × ObjectMap) → List (String × ObjectMap) → CMWriteOutcome
  resolveSubscription : Doc → Option ObjectMap → CacheMetadata →
    List (String × ObjectMap) → List (String × ObjectMap) → CMWriteOutcome
  responsesSetFails : Bool

/-! ### Client configuration and state -/

/-- The `_defaultCacheControls` record (source lines 151-155). -/
structure DefaultCacheControls where
  mutation : String
  query : String
  subscription : String
deriving DecidableEq, Repr

/-- The literal initial value of `ClientHandl._defaultCacheControls`. -/
def defaultCacheControlsInit : DefaultCacheControls :=
  { mutation := "max-age=0, s-maxage=0, no-cache, no-store"
    query := "public, max-age=60, s-maxage=60"
    subscription := "max-age=0, s-maxage=0, no-cache, no-store" }

/-- Indexing `_defaultCacheControls[operation]`; the orchestrator only ever
indexes with one of the three operation strings. -/
def DefaultCacheControls.forOp (d : DefaultCacheControls) (operation : String) : String :=
  if operation = "mutation" then d.mutation
  else if operation = "subscription" then d.subscription
  else d.query

/-- The configuration of a constructed client that the request pipeline
reads: the merged default cache controls, the resource key, whether a
subscriber was configured, and the mode. -/
structure Client where
  defaultCacheControls : DefaultCacheControls
  resourceKey : String
  subscriptionsEnabled : Bool
  mode : String
deriving DecidableEq, Repr

/-- The mutable state owned by the cache manager: the three stores and the
two request registries (spec section 4.D.3). -/
structure ClientState where
  responses : List (String × StoreEntry)
  queryPaths : List (String × ObjectMap)
  dataEntities : List (String × ObjectMap)
  active : List (String × String)
  pending : List (String × List Nat)
deriving DecidableEq

/-- Counts of external invocations made while serving one request. -/
structure Calls where
  executor : Nat
  resolver : Nat
  subscriber : Nat
deriving DecidableEq, Repr

/-- Outcome delivered to a pending caller when the in-flight request for its
fingerprint completes (`_resolvePendingRequests`): resolution with
`{cacheMetadata, data, queryHash}` or rejection with the error. -/
inductive Outcome where
  | resolved (cacheMetadata : Option CacheMetadata) (data : Option ObjectMap)
      (queryHash : String)
  | rejected (error : Err)
deriving DecidableEq

/-! ### The resolve stage (`ClientHandl._resolve`, lines 618-666) -/

namespace ClientHandl

/-- The result shape `_resolve` hands back on success (`ResolveResult`);
optional fields model the conditional assignments in the source. -/
structure ResolveResult where
  cacheMetadata : Option CacheMetadata
  data : Option ObjectMap
  cachePromise : Option PromiseOutcome
  queryHash : Option String
deriving DecidableEq

instance {ε α : Type} [DecidableEq ε] [DecidableEq α] : DecidableEq (Except ε α) :=
  fun a b =>
    match a, b with
    | Except.error e1, Except.error e2 =>
      if h : e1 = e2 then isTrue (by rw [h]) else isFalse (by intro hc; cases hc; exact h rfl)
    | Except.ok v1, Except.ok v2 =>
      if h : v1 = v2 then isTrue (by rw [h]) else isFalse (by intro hc; cases hc; exact h rfl)
    | Except.error _, Except.ok _ => isFalse (by intro hc; cases hc)
    | Except.ok _, Except.error _ => isFalse (by intro hc; cases hc)

/-- The argument record of `_resolve` (`ResolveArgs`), in source field
order; `resolvePending` defaults to `true` at the destructuring site. -/
structure ResolveArgs where
  cacheMetadata : Option CacheMetadata
  cachePromise : Option PromiseOutcome
  data : Option ObjectMap
  error : Option Err
  operation : String
  queryHash : Option String
  resolvePending : Bool

/-- Embeds lines 621-625 of `_resolve`: when the metadata lacks the reserved
`"query"` path, a Cacheability parsed from the operation's default cache
control is inserted. -/
def ensureQueryDefault (c : Client) (env : Env) (operation : String)
    (m : CacheMetadata) : CacheMetadata :=
  if (lookupA m "query").isSome then m
  else insertA m "query"
    (Cacheability.parseCacheControlAt env.now (c.defaultCacheControls.forOp operation))

/-- Embeds `_resolvePendingRequests` (lines 644-666): each pending caller for
the fingerprint is rejected with the error, or resolved with the metadata,
data and fingerprint; then the pending entry is deleted. -/
def resolvePendingStep (st : ClientState) (queryHash : String)
    (cacheMetadata : Option CacheMetadata) (data : Option ObjectMap)
    (error : Option Err) : ClientState × List (Nat × Outcome) :=
  match lookupA st.pending queryHash with
  | none => (st, [])
  | some callers =>
    let outs := callers.map (fun id =>
      (id, match error with
           | some e => Outcome.rejected e
           | none => Outcome.resolved cacheMetadata data queryHash))
    ({ st with pending := eraseA st.pending queryHash }, outs)

/-- What a call to `_resolve` produces: the settled promise of the current
caller, the updated registries, and the outcomes delivered to pending
callers. -/
structure ResolveOut where
  result : Except Err ResolveResult
  state : ClientState
  pendingOutcomes : List (Nat × Outcome)

/-- Embeds `_resolve` (lines 618-642): default the `"query"` metadata entry,
drain pending callers and clear the active entry when requested, then reject
with the error or build the output record. -/
def resolveStep (c : Client) (env : Env) (args : ResolveArgs)
    (st : ClientState) : ResolveOut :=
  let meta := args.cacheMetadata.map (ensureQueryDefault c env args.operation)
  let drained :=
    match args.queryHash, args.resolvePending with
    | some h, true =>
      let pr := resolvePendingStep st h meta args.data args.error
      ({ pr.1 with active := eraseA pr.1.active h }, pr.2)
    | _, _ => (st, ([] : List (Nat × Outcome)))
  match args.error with
  | some e => ⟨Except.error e, drained.1, drained.2⟩
  | none =>
    ⟨Except.ok { cacheMetadata := meta, data := args.data,
                 cachePromise := args.cachePromise, queryHash := args.queryHash },
     drained.1, drained.2⟩

/-! ### Fetching and the response-cache check -/

/-- The result `_fetch` extracts from the executor. -/
structure FetchResult where
  cacheMetadata : Option DehydratedCacheMetadata
  data : Option ObjectMap
deriving DecidableEq

/-- Embeds `_fetch` (lines 424-443): a throw from the executor or an
`errors` field on its result reject the fetch; otherwise the data and
metadata are passed along. -/
def fetchStep (env : Env) (request : String) : Except Err FetchResult :=
  match env.executor request with
  | ExecResponse.throws e => Except.error e
  | ExecResponse.returns data errors cacheMetadata =>
    match errors with
    | some errs => Except.error errs
    | none => Except.ok { cacheMetadata := cacheMetadata, data := data }

/-- Modelled from the spec: `CacheManager.isValid` (cache manager not under
`src/`) accepts the value returned by the store's `has` - a Cacheability or
a falsy miss - and answers validity (spec sections 3 and 4.D). -/
def cacheIsValid (now : Nat) (c : Option Cacheability) : Bool :=
  match c with
  | some cb => cb.isValidAt now
  | none => false

/-- What `_checkResponseCache` returns on a hit. -/
structure CachedResponse where
  cacheMetadata : CacheMetadata
  data : ObjectMap
deriving DecidableEq

/-- Embeds `_checkResponseCache` (lines 400-409): ask the store `has` for
the entry's Cacheability, test validity, and on a hit rehydrate the stored
metadata and return it with the stored data. -/
def checkResponseCache (env : Env) (st : ClientState) (queryHash : String) :
    Option CachedResponse :=
  let cacheability := (lookupA st.responses queryHash).map StoreEntry.cacheability
  if cacheIsValid env.now cacheability then
    match lookupA st.responses queryHash with
    | some entry =>
      some { cacheMetadata := rehydrateCacheMetadata env.now entry.record.cacheMetadata
             data := entry.record.data }
    | none => none
  else none

/-- Embeds `_setPendingRequest` (lines 736-741): append the caller to the
pending list for the fingerprint, creating the list when absent. -/
def setPendingRequest (st : ClientState) (queryHash : String) (callerId : Nat) :
    ClientState :=
  let pending := (lookupA st.pending queryHash).getD []
  { st with pending := insertA st.pending queryHash (pending ++ [callerId]) }

/-! ### The per-operation runs -/

/-- Result of dispatching one operation: a settled promise, an async
iterator handed through untouched (subscriptions), or a registration on the
pending list whose promise settles only when the in-flight request drains. -/
inductive OpResult where
  | res (r : Except Err ResolveResult)
  | stream
  | waiting
deriving DecidableEq

/-- Everything observable about one operation run: its result, the final
state, the outcomes pushed to pending callers, and how often each external
collaborator was invoked. -/
structure OpRunOut where
  result : OpResult
  state : ClientState
  pendingOutcomes : List (Nat × Outcome)
  calls : Calls
deriving DecidableEq

/-- Embeds the cache-control selection of `_query` line 515:
`queryCacheability && queryCacheability.printCacheControl() ||
defaultCacheControl` - a missing `"query"` entry or an empty printed
directive falls back to the default query directive. -/
def queryCacheControlOf (c : Client) (m : CacheMetadata) : String :=
  match lookupA m "query" with
  | some qc =>
    let s := qc.printCacheControl
    if s = "" then c.defaultCacheControls.query else s
  | none => c.defaultCacheControls.query

/-- Embeds `_query` (lines 482-574).  The caller is identified by
`callerId` so that a join on the pending registry can be recorded.  The
async IIFE that writes the response record is sequentialised: the write
lands (or is swallowed when the store throws) and the deferred promise is
fulfilled, before `_resolve` runs.  The non-null casts on `updatedQuery` and
`updatedAST` become `getD` defaults. -/
def queryRun (c : Client) (env : Env) (callerId : Nat) (query : String)
    (ast : Doc) (opts : RequestOptions) (st : ClientState) : OpRunOut :=
  let queryHash := hashRequest query
  match checkResponseCache env st queryHash with
  | some cachedResponse =>
    let r := resolveStep c env
      { cacheMetadata := some cachedResponse.cacheMetadata, cachePromise := none,
        data := some cachedResponse.data, error := none, operation := "query",
        queryHash := some queryHash, resolvePending := false } st
    ⟨OpResult.res r.result, r.state, r.pendingOutcomes, ⟨0, 0, 0⟩⟩
  | none =>
    if (lookupA st.active queryHash).isSome then
      ⟨OpResult.waiting, setPendingRequest st queryHash callerId, [], ⟨0, 0, 0⟩⟩
    else
      let st1 := { st with active := insertA st.active queryHash query }
      let ar := env.analyze queryHash ast
      if ar.cachedData.isSome && ar.cacheMetadata.isSome then
        let cachedData := ar.cachedData.getD []
        let cacheMetadata := ar.cacheMetadata.getD []
        let cacheControl := queryCacheControlOf c cacheMetadata
        let entry : StoreEntry :=
          { record := { cacheMetadata := dehydrateCacheMetadata cacheMetadata
                        data := cachedData }
            cacheability := Cacheability.parseCacheControlAt env.now cacheControl }
        let st2 :=
          if env.responsesSetFails then st1
          else { st1 with responses := insertA st1.responses queryHash entry }
        let r := resolveStep c env
          { cacheMetadata := some cacheMetadata,
            cachePromise := some PromiseOutcome.fulfilled, data := some cachedData,
            error := none, operation := "query", queryHash := some queryHash,
            resolvePending := true } st2
        ⟨OpResult.res r.result, r.state, r.pendingOutcomes, ⟨0, 0, 0⟩⟩
      else
        let updatedQuery := ar.updatedQuery.getD ""
        let updatedAST := ar.updatedAST.getD ⟨[]⟩
        match fetchStep env updatedQuery with
        | Except.error e =>
          let r := resolveStep c env
            { cacheMetadata := none, cachePromise := none, data := none,
              error := some e, operation := "query", queryHash := some queryHash,
              resolvePending := true } st1
          ⟨OpResult.res r.result, r.state, r.pendingOutcomes, ⟨1, 0, 0⟩⟩
        | Except.ok fetchResult =>
          let meta := createCacheMetadata env.now fetchResult.cacheMetadata
          let rq := env.resolveQuery updatedQuery updatedAST queryHash
            fetchResult.data meta st1.responses st1.queryPaths st1.dataEntities
          let st2 :=
            { st1 with responses := rq.responses, queryPaths := rq.queryPaths,
                       dataEntities := rq.dataEntities }
          let r := resolveStep c env
            { cacheMetadata := some rq.cacheMetadata,
              cachePromise := some rq.cacheOutcome, data := rq.data, error := none,
              operation := "query", queryHash := some queryHash,
              resolvePending := true } st2
          ⟨OpResult.res r.result, r.state, r.pendingOutcomes, ⟨1, 1, 0⟩⟩

/-- Embeds `_mutation` (lines 445-480): fetch, then hand the data to
`resolveMutation` - which per the spec touches only data-entities and
query-paths - and resolve with its result and the `cacheResolve` deferred. -/
def mutationRun (c : Client) (env : Env) (mutation : String) (ast : Doc)
    (opts : RequestOptions) (st : ClientState) : OpRunOut :=
  match fetchStep env mutation with
  | Except.error e =>
    let r := resolveStep c env
      { cacheMetadata := none, cachePromise := none, data := none,
        error := some e, operation := "mutation", queryHash := none,
        resolvePending := true } st
    ⟨OpResult.res r.result, r.state, r.pendingOutcomes, ⟨1, 0, 0⟩⟩
  | Except.ok fetchResult =>
    let meta := createCacheMetadata env.now fetchResult.cacheMetadata
    let rm := env.resolveMutation ast fetchResult.data meta st.queryPaths st.dataEntities
    let st1 := { st with queryPaths := rm.queryPaths, dataEntities := rm.dataEntities }
    let r := resolveStep c env
      { cacheMetadata := some rm.cacheMetadata, cachePromise := some rm.cacheOutcome,
        data := rm.data, error := none, operation := "mutation", queryHash := none,
        resolvePending := true } st1
    ⟨OpResult.res r.result, r.state, r.pendingOutcomes, ⟨1, 1, 0⟩⟩

/-- Embeds `_subscription` together with `_resolveSubscriber` (lines
685-767) for the single-result path: a throw or an `errors` field rejects;
a stream is handed through; otherwise the message is resolved like a
mutation, and when `awaitDataCached` is set a rejected `cacheResolve`
deferred propagates as an error. -/
def subscriptionRun (c : Client) (env : Env) (subscription : String) (ast : Doc)
    (opts : RequestOptions) (st : ClientState) : OpRunOut :=
  let hash := hashRequest subscription
  match env.subscriber subscription hash with
  | SubscribeResponse.throws e =>
    let r := resolveStep c env
      { cacheMetadata := none, cachePromise := none, data := none,
        error := some e, operation := "subscription", queryHash := none,
        resolvePending := true } st
    ⟨OpResult.res r.result, r.state, r.pendingOutcomes, ⟨0, 0, 1⟩⟩
  | SubscribeResponse.stream => ⟨OpResult.stream, st, [], ⟨0, 0, 1⟩⟩
  | SubscribeResponse.execResult data errors cacheMetadata =>
    match errors with
    | some errs => ⟨OpResult.res (Except.error errs), st, [], ⟨0, 0, 1⟩⟩
    | none =>
      let meta := createCacheMetadata env.now cacheMetadata
      let rs := env.resolveSubscription ast data meta st.queryPaths st.dataEntities
      let st1 := { st with queryPaths := rs.queryPaths, dataEntities := rs.dataEntities }
      match opts.awaitDataCached, rs.cacheOutcome with
      | true, PromiseOutcome.rejectedWith e =>
        let r := resolveStep c env
          { cacheMetadata := none, cachePromise := none, data := none,
            error := some e, operation := "subscription", queryHash := none,
            resolvePending := true } st1
        ⟨OpResult.res r.result, r.state, r.pendingOutcomes, ⟨0, 1, 1⟩⟩
      | _, _ =>
        let r := resolveStep c env
          { cacheMetadata := some rs.cacheMetadata, cachePromise := none,
            data := rs.data, error := none, operation := "subscription",
            queryHash := none, resolvePending := true } st1
        ⟨OpResult.res r.result, r.state, r.pendingOutcomes, ⟨0, 1, 1⟩⟩

/-- Embeds `_resolveRequestOperation` (lines 668-683): dispatch on the
operation string; subscriptions additionally require a configured
subscriber, and anything else rejects with the dedicated error. -/
def resolveRequestOperation (c : Client) (env : Env) (callerId : Nat)
    (query : String) (ast : Doc) (opts : RequestOptions) (operation : String)
    (st : ClientState) : OpRunOut :=
  if operation = "query" then queryRun c env callerId query ast opts st
  else if operation = "mutation" then mutationRun c env query ast opts st
  else if operation = "subscription" && c.subscriptionsEnabled then
    subscriptionRun c env query ast opts st
  else
    ⟨OpResult.res (Except.error (Err.err
      "Request expected the operation to be \x27query\x27, \x27mutation\x27 or \x27subscription\x27.")),
     st, [], ⟨0, 0, 0⟩⟩

/-! ### The request entry point (`_request`, lines 576-616) -/

/-- The settled shape of one `request` call: a result object, a rejection,
an async iterator handed through, or a registration on the pending list. -/
inductive RequestOutcome where
  | ok (r : ResolveResult)
  | rejected (e : Err)
  | stream
  | waiting
deriving DecidableEq

/-- Everything observable about one `request` call.  `innerCachePromise`
records the `cachePromise` the inner resolve produced before line 611
deleted it from the returned object, and `awaitedCachePromise` records
whether line 610 awaited it. -/
structure RequestRunOut where
  result : RequestOutcome
  state : ClientState
  pendingOutcomes : List (Nat × Outcome)
  calls : Calls
  innerCachePromise : Option PromiseOutcome
  awaitedCachePromise : Bool
deriving DecidableEq

/-- Embeds `_request` (lines 576-616): parse, validate, reject documents
with several operations, dispatch on the single operation, then - for
non-iterator results - await the cachePromise when `opts.awaitDataCached`
is set and delete it from the returned object unconditionally.  The string
and plain-object checks on `query` and `opts` hold by typing. -/
def requestRun (c : Client) (env : Env) (callerId : Nat) (query : String)
    (opts : RequestOptions) (st : ClientState) : RequestRunOut :=
  match env.updateRequest query opts with
  | Except.error e => ⟨RequestOutcome.rejected e, st, [], ⟨0, 0, 0⟩, none, false⟩
  | Except.ok (updatedQuery, updatedAST) =>
    match env.validate updatedAST with
    | msg :: more =>
      ⟨RequestOutcome.rejected (Err.validationErrs (msg :: more)), st, [],
       ⟨0, 0, 0⟩, none, false⟩
    | [] =>
      let operationDefinitions := getOperationDefinitions updatedAST
      if operationDefinitions.length > 1 then
        ⟨RequestOutcome.rejected (Err.typeErr
          "Request expected to process one operation, but got multiple."),
         st, [], ⟨0, 0, 0⟩, none, false⟩
      else
        match operationDefinitions with
        | [] =>
          ⟨RequestOutcome.rejected (Err.typeErr
            "Cannot read property \x27operation\x27 of undefined."),
           st, [], ⟨0, 0, 0⟩, none, false⟩
        | opDef :: _ =>
          let d := resolveRequestOperation c env callerId updatedQuery updatedAST
            opts opDef.operation st
          match d.result with
          | OpResult.stream =>
            ⟨RequestOutcome.stream, d.state, d.pendingOutcomes, d.calls, none, false⟩
          | OpResult.waiting =>
            ⟨RequestOutcome.waiting, d.state, d.pendingOutcomes, d.calls, none, false⟩
          | OpResult.res (Except.error e) =>
            ⟨RequestOutcome.rejected e, d.state, d.pendingOutcomes, d.calls, none, false⟩
          | OpResult.res (Except.ok r) =>
            if opts.awaitDataCached && r.cachePromise.isSome then
              match r.cachePromise with
              | some (PromiseOutcome.rejectedWith e) =>
                ⟨RequestOutcome.rejected e, d.state, d.pendingOutcomes, d.calls,
                 r.cachePromise, true⟩
              | _ =>
                ⟨RequestOutcome.ok { r with cachePromise := none }, d.state,
                 d.pendingOutcomes, d.calls, r.cachePromise, true⟩
            else
              ⟨RequestOutcome.ok { r with cachePromise := none }, d.state,
               d.pendingOutcomes, d.calls, r.cachePromise, false⟩

/-! ### Response-cache observables (lines 324-345) -/

/-- The shape `getResponseCacheEntry` returns: stored data with the
metadata run through `createCacheMetadata`. -/
structure ResponseCacheEntryResult where
  cacheMetadata : CacheMetadata
  data : ObjectMap
deriving DecidableEq

/-- Embeds `getResponseCacheEntry` (lines 324-333). -/
def getResponseCacheEntry (env : Env) (st : ClientState) (key : String) :
    Option ResponseCacheEntryResult :=
  match lookupA st.responses key with
  | none => none
  | some entry =>
    some { cacheMetadata := createCacheMetadata env.now (some entry.record.cacheMetadata)
           data := entry.record.data }

/-- Embeds `getResponseCacheSize` (lines 339-345). -/
def getResponseCacheSize (st : ClientState) : Nat :=
  st.responses.length

/-! ### The create factory and its module-level singleton (lines 72-97) -/

/-- Constructor arguments, at the granularity the `create` guard and the
constructor's validation read them.  `newInst` models the `newInstance`
flag.  `introspectionPlain` says whether `introspection` is a plain object,
`url` whether a string url was supplied, `subscriptionsCfg` whether a plain
`subscriptions` object was supplied. -/
structure ClientArgs where
  newInst : Bool
  introspectionPlain : Bool
  url : Option String
  subscriptionsCfg : Bool
  resourceKey : Option String
  mutationControl : Option String
  queryControl : Option String
  subscriptionControl : Option String
deriving DecidableEq, Repr

/-- The `args` value as `create` receives it: a plain object or anything
else (which fails `isPlainObject` and makes the constructor throw). -/
inductive ArgsVal where
  | plain (args : ClientArgs)
  | notPlain
deriving DecidableEq, Repr

/-- Truthiness of `args.newInstance` as line 87 reads it: reading the field
off a non-plain-object value yields `undefined`, which is falsy. -/
def ArgsVal.newInstTruthy : ArgsVal → Bool
  | ArgsVal.plain args => args.newInst
  | ArgsVal.notPlain => false

def ArgsVal.isPlain : ArgsVal → Bool
  | ArgsVal.plain _ => true
  | ArgsVal.notPlain => false

/-- Embeds the constructor (lines 166-235) in default (browser) mode:
non-plain args throw a `TypeError`; missing introspection or url collect
`TypeError`s which are thrown together; otherwise the configuration is
assembled, merging any given default cache controls over the initial ones
field by field. -/
def construct (socketsOk : Bool) (a : ArgsVal) : Except Err Client :=
  match a with
  | ArgsVal.notPlain =>
    Except.error (Err.typeErr "Constructor expected args to be a plain object.")
  | ArgsVal.plain args =>
    let introspectionErrs :=
      if args.introspectionPlain then ([] : List String)
      else ["Constructor expected introspection to be a plain object."]
    let urlErrs :=
      if args.url.isSome then ([] : List String)
      else ["Constructor expected url to be a string."]
    let errs := introspectionErrs ++ urlErrs
    if errs ≠ [] then Except.error (Err.typeErrs errs)
    else
      Except.ok
        { defaultCacheControls :=
            { mutation := args.mutationControl.getD defaultCacheControlsInit.mutation
              query := args.queryControl.getD defaultCacheControlsInit.query
              subscription :=
                args.subscriptionControl.getD defaultCacheControlsInit.subscription }
          resourceKey := args.resourceKey.getD "id"
          subscriptionsEnabled := socketsOk && args.subscriptionsCfg
          mode := "default" }

/-- What one `create` call produces: the settled promise, the module-level
singleton afterwards, and whether a fresh instance was constructed. -/
structure CreateOut where
  result : Except Err Client
  inst : Option Client
  constructedFresh : Bool
deriving DecidableEq

/-- Embeds `ClientHandl.create` (lines 86-97) together with the
module-level `instance` variable (`inst` here): when a singleton exists,
the args are a plain object and `newInstance` is not truthy, the existing
singleton is returned untouched; otherwise a fresh client is constructed
and becomes the singleton, and a constructor throw leaves the singleton
as it was. -/
def createRun (socketsOk : Bool) (inst : Option Client) (a : ArgsVal) : CreateOut :=
  match inst with
  | some i =>
    if a.isPlain && !a.newInstTruthy then ⟨Except.ok i, some i, false⟩
    else
      match construct socketsOk a with
      | Except.ok client => ⟨Except.ok client, some client, true⟩
      | Except.error e => ⟨Except.error e, some i, false⟩
  | none =>
    match construct socketsOk a with
    | Except.ok client => ⟨Except.ok client, some client, true⟩
    | Except.error e => ⟨Except.error e, none, false⟩

end ClientHandl

/-! ### Concrete fixtures used by witnesses and counterexamples -/

open ClientHandl

/-- A client in default mode with the built-in cache controls and no
subscriber configured. -/
def clientEx : Client :=
  ⟨defaultCacheControlsInit, "id", false, "default"⟩

/-- The client with subscriptions enabled. -/
def clientSubEx : Client :=
  ⟨defaultCacheControlsInit, "id", true, "default"⟩

/-- All stores and registries empty. -/
def emptyState : ClientState := ⟨[], [], [], [], []⟩

/-- A document holding a single query operation. -/
def docQ : Doc := ⟨[⟨"query", none⟩]⟩

/-- Request options with nothing opted in. -/
def optsEx : RequestOptions := ⟨false, none⟩

/-- A parsed, currently valid public directive with sixty seconds to live. -/
def cabEx : Cacheability := ⟨60, none, false, false, true, false, 0⟩

def metaEx : CacheMetadata := [("query", cabEx)]

def dataEx : ObjectMap := [("a", "1")]

/-- Baseline collaborators: the parser echoes the request as a single query
operation, validation passes, analysis knows nothing, the executor throws
and the cache manager resolves stores unchanged. -/
def envEx : Env :=
  { now := 0
    updateRequest := fun query _ => Except.ok (query, docQ)
    validate := fun _ => []
    analyze := fun _ _ => ⟨none, none, none, none, none⟩
    executor := fun _ => ExecResponse.throws (Err.fromExec 7)
    subscriber := fun _ _ => SubscribeResponse.stream
    resolveQuery := fun _ _ _ data meta r q d => ⟨r, q, d, meta, data, PromiseOutcome.fulfilled⟩
    resolveMutation := fun _ data meta q d => ⟨q, d, meta, data, PromiseOutcome.fulfilled⟩
    resolveSubscription := fun _ data meta q d => ⟨q, d, meta, data, PromiseOutcome.fulfilled⟩
    responsesSetFails := false }

/-- Collaborators where analysis reconstructs a full response from the
data-entity and query-path tiers. -/
def envHit : Env :=
  { envEx with analyze := fun _ _ => ⟨some dataEx, some metaEx, none, none, none⟩ }

/-- The full-hit collaborators with a throwing responses store. -/
def envHitFail : Env :=
  { envHit with responsesSetFails := true }

/-- A state whose pending registry already holds two callers for the
fingerprint of the request string used by the witnesses, standing for two
callers that joined while the request was in flight. -/
def pendSt : ClientState := ⟨[], [], [], [], [(hashRequest "q", [1, 2])]⟩

/-- A stored response record for the witnesses. -/
def respRec : ResponseRecord := ⟨[("query", "public, max-age=60")], dataEx⟩

/-- A state whose responses store holds a valid record under the witness
request fingerprint. -/
def respSt : ClientState := ⟨[(hashRequest "q", ⟨respRec, cabEx⟩)], [], [], [], []⟩

/-- Collaborators whose parser yields a document with two operations. -/
def envTwoOps : Env :=
  { envEx with updateRequest := fun query _ =>
      Except.ok (query, ⟨[⟨"query", none⟩, ⟨"query", none⟩]⟩) }

/-- Collaborators whose parser yields a single subscription operation. -/
def envSubDoc : Env :=
  { envEx with updateRequest := fun query _ =>
      Except.ok (query, ⟨[⟨"subscription", none⟩]⟩) }

/-- Well-formed constructor arguments that do not ask for a new singleton. -/
def argsEx : ClientArgs := ⟨false, true, some "http://localhost", false, none, none, none, none⟩

/-- Shared helper: an invalid or missing response-cache entry makes
`_checkResponseCache` miss. -/
theorem checkResponseCache_miss (env : Env) (st : ClientState) (qh : String)
    (h : cacheIsValid env.now ((lookupA st.responses qh).map StoreEntry.cacheability) = false) :
    checkResponseCache env st qh = none := by
  simp [checkResponseCache, h]

/-- The cachePromise a settled request outcome exposes to the caller: the
one on a result object, nothing otherwise. -/
def carriedCachePromise : ClientHandl.RequestOutcome → Option PromiseOutcome
  | ClientHandl.RequestOutcome.ok r => r.cachePromise
  | _ => none

/-! ## The claims -/

/-- C1: when a query whose fingerprint has pending callers completes with an
executor error, the original caller is rejected with that error, every
pending caller is rejected with the same error, and afterwards neither the
active nor the pending registry holds an entry for the fingerprint.  The
hypotheses place the run on the executor-error path: the response cache
misses, no other request is active, the analysis is not a full hit, the
executor rejects, and the pending registry holds the callers that joined
while the request was in flight. -/
theorem claim_C1_executor_error_drains_registries (c : Client) (env : Env)
    (callerId : Nat) (query : String) (ast : Doc) (opts : RequestOptions)
    (st : ClientState) (cs : List Nat) (e : Err)
    (hcheck : cacheIsValid env.now
      ((lookupA st.responses (hashRequest query)).map StoreEntry.cacheability) = false)
    (hactive : lookupA st.active (hashRequest query) = none)
    (hmiss : (env.analyze (hashRequest query) ast).cachedData = none ∨
             (env.analyze (hashRequest query) ast).cacheMetadata = none)
    (hpend : lookupA st.pending (hashRequest query) = some cs)
    (hfetch : fetchStep env ((env.analyze (hashRequest query) ast).updatedQuery.getD "") =
      Except.error e) :
    (queryRun c env callerId query ast opts st).result = OpResult.res (Except.error e) ∧
    (queryRun c env callerId query ast opts st).pendingOutcomes =
      cs.map (fun id => (id, Outcome.rejected e)) ∧
    lookupA (queryRun c env callerId query ast opts st).state.active (hashRequest query) = none ∧
    lookupA (queryRun c env callerId query ast opts st).state.pending (hashRequest query) = none := by
  have hc := checkResponseCache_miss env st (hashRequest query) hcheck
  have hguard : ((env.analyze (hashRequest query) ast).cachedData.isSome &&
      (env.analyze (hashRequest query) ast).cacheMetadata.isSome) = false := by
    rcases hmiss with hm | hm <;> simp [hm]
  simp only [queryRun, hc, hactive, Option.isSome_none, Bool.false_eq_true, if_false,
    hguard, hfetch, resolveStep, resolvePendingStep]
  simp [hpend, lookupA_eraseA_self]

/-- C1 witness: two pending callers, a throwing executor; all three callers
see the same rejection and both registries are empty at the fingerprint. -/
theorem claim_C1_witness :
    (queryRun clientEx envEx 0 "q" docQ optsEx pendSt).result =
      OpResult.res (Except.error (Err.fromExec 7)) ∧
    (queryRun clientEx envEx 0 "q" docQ optsEx pendSt).pendingOutcomes =
      [1, 2].map (fun id => (id, Outcome.rejected (Err.fromExec 7))) ∧
    lookupA (queryRun clientEx envEx 0 "q" docQ optsEx pendSt).state.active
      (hashRequest "q") = none ∧
    lookupA (queryRun clientEx envEx 0 "q" docQ optsEx pendSt).state.pending
      (hashRequest "q") = none :=
  claim_C1_executor_error_drains_registries clientEx envEx 0 "q" docQ optsEx pendSt
    [1, 2] (Err.fromExec 7) (by decide) (by decide) (Or.inl (by decide)) (by decide) (by decide)

/-- C2: when the responses store holds an entry for the fingerprint whose
Cacheability is valid at check time, the executor is never invoked and the
caller receives the stored data together with the rehydrated stored
metadata (run through the universal `_resolve` step, which adds the default
directive at the reserved path `"query"` when - and only when - the
rehydrated metadata lacks it, and is the identity on the metadata
otherwise); the state is untouched. -/
theorem claim_C2_valid_response_cache_short_circuits (c : Client) (env : Env)
    (callerId : Nat) (query : String) (ast : Doc) (opts : RequestOptions)
    (st : ClientState) (entry : StoreEntry)
    (hlook : lookupA st.responses (hashRequest query) = some entry)
    (hvalid : entry.cacheability.isValidAt env.now = true) :
    (queryRun c env callerId query ast opts st).calls.executor = 0 ∧
    (queryRun c env callerId query ast opts st).result = OpResult.res (Except.ok
      { cacheMetadata := some (ensureQueryDefault c env "query"
          (rehydrateCacheMetadata env.now entry.record.cacheMetadata))
        data := some entry.record.data
        cachePromise := none
        queryHash := some (hashRequest query) }) ∧
    (queryRun c env callerId query ast opts st).state = st := by
  have hc : checkResponseCache env st (hashRequest query) = some
      ⟨rehydrateCacheMetadata env.now entry.record.cacheMetadata, entry.record.data⟩ := by
    simp [checkResponseCache, hlook, cacheIsValid, hvalid]
  simp only [queryRun, hc, resolveStep, resolvePendingStep]
  simp

/-- C2 witness: a stored, currently valid record is served without touching
the executor. -/
theorem claim_C2_witness :
    (queryRun clientEx envEx 0 "q" docQ optsEx respSt).calls.executor = 0 ∧
    (queryRun clientEx envEx 0 "q" docQ optsEx respSt).result = OpResult.res (Except.ok
      { cacheMetadata := some (ensureQueryDefault clientEx envEx "query"
          (rehydrateCacheMetadata envEx.now respRec.cacheMetadata))
        data := some respRec.data
        cachePromise := none
        queryHash := some (hashRequest "q") }) ∧
    (queryRun clientEx envEx 0 "q" docQ optsEx respSt).state = respSt :=
  claim_C2_valid_response_cache_short_circuits clientEx envEx 0 "q" docQ optsEx respSt
    ⟨respRec, cabEx⟩ (by decide) (by decide)

/-- C3: when `analyze` returns both cachedData and cacheMetadata, the
orchestrator writes the pair of the dehydrated metadata and the cached data
into the responses store under the fingerprint - with cache control taken
from the metadata entry at `"query"` when its printed directive is
non-empty, else the default query directive (`queryCacheControlOf`) - and
resolves the caller with the cached data without invoking the executor. -/
theorem claim_C3_full_analyse_hit_writes_response_record (c : Client) (env : Env)
    (callerId : Nat) (query : String) (ast : Doc) (opts : RequestOptions)
    (st : ClientState) (cd : ObjectMap) (cm : CacheMetadata)
    (hcheck : cacheIsValid env.now
      ((lookupA st.responses (hashRequest query)).map StoreEntry.cacheability) = false)
    (hactive : lookupA st.active (hashRequest query) = none)
    (hcd : (env.analyze (hashRequest query) ast).cachedData = some cd)
    (hcm : (env.analyze (hashRequest query) ast).cacheMetadata = some cm)
    (hset : env.responsesSetFails = false) :
    lookupA (queryRun c env callerId query ast opts st).state.responses (hashRequest query) =
      some ⟨⟨dehydrateCacheMetadata cm, cd⟩,
        Cacheability.parseCacheControlAt env.now (queryCacheControlOf c cm)⟩ ∧
    (queryRun c env callerId query ast opts st).calls.executor = 0 ∧
    (queryRun c env callerId query ast opts st).result = OpResult.res (Except.ok
      ⟨some (ensureQueryDefault c env "query" cm), some cd,
       some PromiseOutcome.fulfilled, some (hashRequest query)⟩) := by
  have hc := checkResponseCache_miss env st (hashRequest query) hcheck
  simp only [queryRun, hc, hactive, Option.isSome_none, Bool.false_eq_true, if_false,
    hcd, hcm, Option.isSome_some, Bool.and_self, if_true, hset, resolveStep,
    resolvePendingStep]
  rcases hp : lookupA st.pending (hashRequest query) with _ | cs <;>
    simp [hp, lookupA_insertA_self]

/-- C3 witness: a full analysis hit lands in the responses store and the
caller gets the cached data with zero executor calls. -/
theorem claim_C3_witness :
    lookupA (queryRun clientEx envHit 0 "q" docQ optsEx emptyState).state.responses
      (hashRequest "q") =
      some ⟨⟨dehydrateCacheMetadata metaEx, dataEx⟩,
        Cacheability.parseCacheControlAt envHit.now (queryCacheControlOf clientEx metaEx)⟩ ∧
    (queryRun clientEx envHit 0 "q" docQ optsEx emptyState).calls.executor = 0 ∧
    (queryRun clientEx envHit 0 "q" docQ optsEx emptyState).result = OpResult.res (Except.ok
      ⟨some (ensureQueryDefault clientEx envHit "query" metaEx), some dataEx,
       some PromiseOutcome.fulfilled, some (hashRequest "q")⟩) :=
  claim_C3_full_analyse_hit_writes_response_record clientEx envHit 0 "q" docQ optsEx
    emptyState dataEx metaEx (by decide) (by decide) (by decide) (by decide) (by decide)

/-- C4: a mutation resolve leaves the responses store untouched - the store
itself, every entry observable through `getResponseCacheEntry` and the size
observable through `getResponseCacheSize` are unchanged - while the
data-entity and query-path tiers may be updated by `resolveMutation`. -/
theorem claim_C4_mutation_preserves_response_cache (c : Client) (env : Env)
    (mutation : String) (ast : Doc) (opts : RequestOptions) (st : ClientState)
    (key : String) :
    (mutationRun c env mutation ast opts st).state.responses = st.responses ∧
    getResponseCacheEntry env (mutationRun c env mutation ast opts st).state key =
      getResponseCacheEntry env st key ∧
    getResponseCacheSize (mutationRun c env mutation ast opts st).state =
      getResponseCacheSize st := by
  have hresp : (mutationRun c env mutation ast opts st).state.responses = st.responses := by
    cases hf : fetchStep env mutation <;>
      simp [mutationRun, hf, resolveStep, resolvePendingStep]
  refine ⟨hresp, ?_, ?_⟩ <;> simp [getResponseCacheEntry, getResponseCacheSize, hresp]

/-- C5 counterexample: a query served wholly from cache, with
`awaitDataCached` unset, produced a cachePromise internally (it is recorded
in `innerCachePromise`), yet the returned result object does not carry it -
line 611 deletes the cachePromise unconditionally - refuting the part of the
claim that says the returned result still carries the cachePromise when
`awaitDataCached` is not set. -/
theorem claim_C5_counterexample :
    (requestRun clientEx envHit 0 "q" optsEx emptyState).innerCachePromise =
      some PromiseOutcome.fulfilled ∧
    (requestRun clientEx envHit 0 "q" optsEx emptyState).result = RequestOutcome.ok
      { cacheMetadata := some metaEx, data := some dataEx, cachePromise := none,
        queryHash := some (hashRequest "q") } ∧
    optsEx.awaitDataCached = false := by decide

/-- C5 as amended: the returned result of a settled request never carries a
cachePromise - it is deleted unconditionally before returning - and when
`opts.awaitDataCached` is set and the inner resolve produced a cachePromise,
it is awaited before returning. -/
theorem claim_C5_cachepromise_always_stripped (c : Client) (env : Env)
    (callerId : Nat) (query : String) (opts : RequestOptions) (st : ClientState) :
    carriedCachePromise (requestRun c env callerId query opts st).result = none ∧
    (opts.awaitDataCached = true →
      (requestRun c env callerId query opts st).innerCachePromise.isSome = true →
      (requestRun c env callerId query opts st).awaitedCachePromise = true) := by
  unfold requestRun
  cases hup : env.updateRequest query opts with
  | error e => simp [hup, carriedCachePromise]
  | ok p =>
    obtain ⟨uq, uast⟩ := p
    cases hval : env.validate uast with
    | cons msg more => simp [hup, hval, carriedCachePromise]
    | nil =>
      cases hops : getOperationDefinitions uast with
      | nil => simp [hup, hval, hops, carriedCachePromise]
      | cons od tl =>
        cases tl with
        | cons od2 tl2 => simp [hup, hval, hops, carriedCachePromise]
        | nil =>
          cases hres : (resolveRequestOperation c env callerId uq uast opts od.operation st).result with
          | stream => simp [hup, hval, hops, hres, carriedCachePromise]
          | waiting => simp [hup, hval, hops, hres, carriedCachePromise]
          | res r2 =>
            cases r2 with
            | error e => simp [hup, hval, hops, hres, carriedCachePromise]
            | ok rr =>
              by_cases hawait : (opts.awaitDataCached && rr.cachePromise.isSome) = true
              · cases hcp : rr.cachePromise with
                | none => simp [hcp] at hawait
                | some po =>
                  have hA : opts.awaitDataCached = true := by
                    simpa [hcp] using hawait
                  cases po with
                  | fulfilled =>
                    simp [hup, hval, hops, hres, hawait, hcp, hA, carriedCachePromise]
                  | rejectedWith e =>
                    simp [hup, hval, hops, hres, hawait, hcp, hA, carriedCachePromise]
              · constructor
                · simp [hup, hval, hops, hres, hawait, carriedCachePromise]
                · intro ha hs
                  simp [hup, hval, hops, hres, hawait] at hs ⊢
                  simp [ha, hs] at hawait

/-- C5 witness: with `awaitDataCached` set and a cachePromise produced, the
promise is awaited and the returned result still carries none. -/
theorem claim_C5_witness :
    carriedCachePromise (requestRun clientEx envHit 0 "q" ⟨true, none⟩ emptyState).result = none ∧
    (requestRun clientEx envHit 0 "q" ⟨true, none⟩ emptyState).awaitedCachePromise = true :=
  ⟨(claim_C5_cachepromise_always_stripped clientEx envHit 0 "q" ⟨true, none⟩ emptyState).1,
   (claim_C5_cachepromise_always_stripped clientEx envHit 0 "q" ⟨true, none⟩ emptyState).2
     rfl (by decide)⟩

/-- C6 counterexample: the responses store throws on write after a full
analysis hit; the user-visible promise resolves with the cached data, the
store is left without the entry, but the cachePromise is fulfilled - line
528 resolves the deferred in the `finally` after swallowing the write error
- refuting the part of the claim that says the cachePromise rejects. -/
theorem claim_C6_counterexample :
    envHitFail.responsesSetFails = true ∧
    (queryRun clientEx envHitFail 0 "q" docQ optsEx emptyState).result = OpResult.res (Except.ok
      { cacheMetadata := some metaEx, data := some dataEx,
        cachePromise := some PromiseOutcome.fulfilled,
        queryHash := some (hashRequest "q") }) ∧
    (queryRun clientEx envHitFail 0 "q" docQ optsEx emptyState).state.responses = [] := by
  decide

/-- C6 as amended: when the write of the response record after a full
analysis hit fails, the user-visible promise still resolves with the cached
data, the responses store is unchanged, and the cachePromise also resolves
(the write error is swallowed and the deferred fulfilled in the `finally`
block). -/
theorem claim_C6_write_failure_cachepromise_resolves (c : Client) (env : Env)
    (callerId : Nat) (query : String) (ast : Doc) (opts : RequestOptions)
    (st : ClientState) (cd : ObjectMap) (cm : CacheMetadata)
    (hcheck : cacheIsValid env.now
      ((lookupA st.responses (hashRequest query)).map StoreEntry.cacheability) = false)
    (hactive : lookupA st.active (hashRequest query) = none)
    (hcd : (env.analyze (hashRequest query) ast).cachedData = some cd)
    (hcm : (env.analyze (hashRequest query) ast).cacheMetadata = some cm)
    (hset : env.responsesSetFails = true) :
    (queryRun c env callerId query ast opts st).result = OpResult.res (Except.ok
      ⟨some (ensureQueryDefault c env "query" cm), some cd,
       some PromiseOutcome.fulfilled, some (hashRequest query)⟩) ∧
    (queryRun c env callerId query ast opts st).state.responses = st.responses := by
  have hc := checkResponseCache_miss env st (hashRequest query) hcheck
  simp only [queryRun, hc, hactive, Option.isSome_none, Bool.false_eq_true, if_false,
    hcd, hcm, Option.isSome_some, Bool.and_self, if_true, hset, resolveStep,
    resolvePendingStep]
  rcases hp : lookupA st.pending (hashRequest query) with _ | cs <;> simp [hp]

/-- C6 witness: the amended behaviour at the concrete failing store. -/
theorem claim_C6_witness :
    (queryRun clientEx envHitFail 0 "q" docQ optsEx emptyState).result = OpResult.res (Except.ok
      ⟨some (ensureQueryDefault clientEx envHitFail "query" metaEx), some dataEx,
       some PromiseOutcome.fulfilled, some (hashRequest "q")⟩) ∧
    (queryRun clientEx envHitFail 0 "q" docQ optsEx emptyState).state.responses =
      emptyState.responses :=
  claim_C6_write_failure_cachepromise_resolves clientEx envHitFail 0 "q" docQ optsEx
    emptyState dataEx metaEx (by decide) (by decide) (by decide) (by decide) (by decide)

/-- C7 counterexample: resolving a mutation whose metadata lacks a `"query"`
entry gains one parsed from the built-in mutation default - which is the
string `max-age=0, s-maxage=0, no-cache, no-store` - and that default is not
the claimed `max-age=0, no-cache, no-store`; the two directives also parse
to different Cacheabilities (the `s-maxage=0` field differs), refuting the
exactness part of the claim. -/
theorem claim_C7_counterexample :
    (resolveStep clientEx envEx ⟨some [], none, some [], none, "mutation", none, true⟩
      emptyState).result = Except.ok
      { cacheMetadata := some [("query", Cacheability.parseCacheControlAt 0
          "max-age=0, s-maxage=0, no-cache, no-store")]
        data := some []
        cachePromise := none
        queryHash := none } ∧
    defaultCacheControlsInit.mutation ≠ "max-age=0, no-cache, no-store" ∧
    Cacheability.parseCacheControlAt 0 "max-age=0, s-maxage=0, no-cache, no-store" ≠
      Cacheability.parseCacheControlAt 0 "max-age=0, no-cache, no-store" := by decide

/-- C7 as amended: a mutation or subscription result whose metadata lacks an
entry at the reserved path `"query"` gains one parsed from the default
directive for that operation, and on a client with the built-in defaults
that directive is exactly `max-age=0, s-maxage=0, no-cache, no-store` for
both mutations and subscriptions. -/
theorem claim_C7_default_directive_gained (c : Client) (env : Env)
    (args : ResolveArgs) (st : ClientState) (m : CacheMetadata)
    (hc : c.defaultCacheControls = defaultCacheControlsInit)
    (hop : args.operation = "mutation" ∨ args.operation = "subscription")
    (hm : args.cacheMetadata = some m)
    (hq : lookupA m "query" = none)
    (he : args.error = none) :
    (resolveStep c env args st).result = Except.ok
      { cacheMetadata := some (insertA m "query" (Cacheability.parseCacheControlAt env.now
          "max-age=0, s-maxage=0, no-cache, no-store"))
        data := args.data
        cachePromise := args.cachePromise
        queryHash := args.queryHash } ∧
    defaultCacheControlsInit.mutation = "max-age=0, s-maxage=0, no-cache, no-store" ∧
    defaultCacheControlsInit.subscription = "max-age=0, s-maxage=0, no-cache, no-store" := by
  refine ⟨?_, rfl, rfl⟩
  rcases hop with hop | hop <;>
    · simp only [resolveStep, hm, hq, he, hc, hop]
      rcases hqh : args.queryHash with _ | h
      · simp [ensureQueryDefault, hq, hc, hop, DefaultCacheControls.forOp,
          defaultCacheControlsInit]
      · rcases hrp : args.resolvePending with _ | _ <;>
          simp [ensureQueryDefault, hq, hc, hop, DefaultCacheControls.forOp,
            defaultCacheControlsInit, resolvePendingStep]

/-- C7 witness: the amended behaviour at a concrete subscription resolve. -/
theorem claim_C7_witness :
    (resolveStep clientEx envEx ⟨some [], none, some [], none, "subscription", none, true⟩
      emptyState).result = Except.ok
      { cacheMetadata := some (insertA [] "query" (Cacheability.parseCacheControlAt envEx.now
          "max-age=0, s-maxage=0, no-cache, no-store"))
        data := some []
        cachePromise := none
        queryHash := none } ∧
    defaultCacheControlsInit.mutation = "max-age=0, s-maxage=0, no-cache, no-store" ∧
    defaultCacheControlsInit.subscription = "max-age=0, s-maxage=0, no-cache, no-store" :=
  claim_C7_default_directive_gained clientEx envEx
    ⟨some [], none, some [], none, "subscription", none, true⟩ emptyState []
    rfl (Or.inr rfl) rfl rfl rfl

/-- C8: a parsed, validated document holding more than one top-level
operation makes `request` reject with the dedicated error, with no executor
call, no subscriber call, no cache resolve, and the state untouched. -/
theorem claim_C8_multiple_operations_rejected (c : Client) (env : Env)
    (callerId : Nat) (query : String) (opts : RequestOptions) (st : ClientState)
    (uq : String) (uast : Doc)
    (hp : env.updateRequest query opts = Except.ok (uq, uast))
    (hv : env.validate uast = [])
    (hops : (getOperationDefinitions uast).length > 1) :
    requestRun c env callerId query opts st =
      ⟨RequestOutcome.rejected (Err.typeErr
        "Request expected to process one operation, but got multiple."),
       st, [], ⟨0, 0, 0⟩, none, false⟩ := by
  simp only [requestRun, hp, hv]
  rw [if_pos hops]

/-- C8 witness: a two-operation document is rejected with no external
calls. -/
theorem claim_C8_witness :
    requestRun clientEx envTwoOps 0 "q" optsEx emptyState =
      ⟨RequestOutcome.rejected (Err.typeErr
        "Request expected to process one operation, but got multiple."),
       emptyState, [], ⟨0, 0, 0⟩, none, false⟩ :=
  claim_C8_multiple_operations_rejected clientEx envTwoOps 0 "q" optsEx emptyState "q"
    ⟨[⟨"query", none⟩, ⟨"query", none⟩]⟩ (by decide) (by decide) (by decide)

/-- C9: once a singleton exists, `create` called with a plain-object args
whose `newInstance` flag is not truthy resolves with the existing instance,
ignoring every other field (the args are universally quantified), and a
fresh instance is successfully constructed only when no singleton exists or
the flag is truthy. -/
theorem claim_C9_create_returns_singleton (socketsOk : Bool) (i : Client)
    (args : ClientArgs) (inst2 : Option Client) (a : ArgsVal)
    (hni : args.newInst = false) :
    createRun socketsOk (some i) (ArgsVal.plain args) = ⟨Except.ok i, some i, false⟩ ∧
    ((createRun socketsOk inst2 a).constructedFresh = true →
      inst2 = none ∨ a.newInstTruthy = true) := by
  constructor
  · simp [createRun, ArgsVal.isPlain, ArgsVal.newInstTruthy, hni]
  · intro h
    cases inst2 with
    | none => exact Or.inl rfl
    | some j =>
      right
      cases a with
      | notPlain =>
        exfalso
        simp [createRun, ArgsVal.isPlain, ArgsVal.newInstTruthy, construct] at h
      | plain args2 =>
        by_cases hn : args2.newInst
        · simp [ArgsVal.newInstTruthy, hn]
        · exfalso
          simp [createRun, ArgsVal.isPlain, ArgsVal.newInstTruthy, hn] at h

/-- C9 witness: with a singleton present and `newInstance` unset the
singleton is returned; with no singleton a fresh construction is allowed. -/
theorem claim_C9_witness :
    createRun true (some clientEx) (ArgsVal.plain argsEx) =
      ⟨Except.ok clientEx, some clientEx, false⟩ ∧
    ((none : Option Client) = none ∨ (ArgsVal.plain argsEx).newInstTruthy = true) :=
  ⟨(claim_C9_create_returns_singleton true clientEx argsEx none (ArgsVal.plain argsEx) rfl).1,
   (claim_C9_create_returns_singleton true clientEx argsEx none (ArgsVal.plain argsEx) rfl).2
     (by decide)⟩

/-- C10: a request parsed to a single subscription operation on a client
without a configured subscriber rejects with the dedicated operation error,
and no executor, subscriber or cache resolve is invoked. -/
theorem claim_C10_subscription_disabled_rejected (c : Client) (env : Env)
    (callerId : Nat) (query : String) (opts : RequestOptions) (st : ClientState)
    (uq : String) (uast : Doc) (nm : Option String)
    (hp : env.updateRequest query opts = Except.ok (uq, uast))
    (hv : env.validate uast = [])
    (hops : getOperationDefinitions uast = [⟨"subscription", nm⟩])
    (hsub : c.subscriptionsEnabled = false) :
    requestRun c env callerId query opts st =
      ⟨RequestOutcome.rejected (Err.err
        "Request expected the operation to be \x27query\x27, \x27mutation\x27 or \x27subscription\x27."),
       st, [], ⟨0, 0, 0⟩, none, false⟩ := by
  simp [requestRun, hp, hv, hops, resolveRequestOperation, hsub]

/-- C10 witness: a subscription on the subscription-less client rejects with
the exact message and zero collaborator calls. -/
theorem claim_C10_witness :
    requestRun clientEx envSubDoc 0 "q" optsEx emptyState =
      ⟨RequestOutcome.rejected (Err.err
        "Request expected the operation to be \x27query\x27, \x27mutation\x27 or \x27subscription\x27."),
       emptyState, [], ⟨0, 0, 0⟩, none, false⟩ :=
  claim_C10_subscription_disabled_rejected clientEx envSubDoc 0 "q" optsEx emptyState "q"
    ⟨[⟨"subscription", none⟩]⟩ none (by decide) (by decide) (by decide) (by decide)

end Handl
